import Mathlib

/-!
Verification of the mxio POSIX compatibility layer
(`system/ulib/mxio/unistd.c`).

The definitions below are shallow embeddings of the C functions of
`unistd.c`.  Machine integers are modelled as `Int`/`Nat` (the quantities
involved stay far from any overflow boundary), the fd table as a function
`Nat → Option _`, C strings as `List Char`, and kernel or transport calls
as explicit oracle parameters.  Undefined behavior — an out-of-bounds
table index or a null-pointer dereference — is modelled by an
`Option`-valued result, `none` meaning "no defined result".  Unbounded C
loops are given explicit fuel; every theorem that relies on fuel supplies
enough of it for the loop to run exactly as the C loop would.
-/

/-- Modelled from the spec: kernel status `NO_ERROR` (§4.9, §7); the numeric
values of the status codes come from the SDK headers that are not under
`src/` — only their distinctness and sign matter to the claims. -/
def NO_ERROR : Int := 0

/-- Modelled from the spec: kernel status `ERR_NOT_SUPPORTED`. -/
def ERR_NOT_SUPPORTED : Int := -2

/-- Modelled from the spec: kernel status `ERR_NO_MEMORY`. -/
def ERR_NO_MEMORY : Int := -4

/-- Modelled from the spec: kernel status `ERR_NO_RESOURCES`. -/
def ERR_NO_RESOURCES : Int := -5

/-- Modelled from the spec: kernel status `ERR_INVALID_ARGS`. -/
def ERR_INVALID_ARGS : Int := -10

/-- Modelled from the spec: kernel status `ERR_BAD_HANDLE`. -/
def ERR_BAD_HANDLE : Int := -11

/-- Modelled from the spec: kernel status `ERR_OUT_OF_RANGE`. -/
def ERR_OUT_OF_RANGE : Int := -14

/-- Modelled from the spec: kernel status `ERR_BUFFER_TOO_SMALL`. -/
def ERR_BUFFER_TOO_SMALL : Int := -15

/-- Modelled from the spec: kernel status `ERR_TIMED_OUT`. -/
def ERR_TIMED_OUT : Int := -21

/-- Modelled from the spec: kernel status `ERR_SHOULD_WAIT`. -/
def ERR_SHOULD_WAIT : Int := -22

/-- Modelled from the spec: kernel status `ERR_REMOTE_CLOSED`. -/
def ERR_REMOTE_CLOSED : Int := -24

/-- Modelled from the spec: kernel status `ERR_NOT_FOUND`. -/
def ERR_NOT_FOUND : Int := -25

/-- Modelled from the spec: kernel status `ERR_ALREADY_EXISTS`. -/
def ERR_ALREADY_EXISTS : Int := -26

/-- Modelled from the spec: kernel status `ERR_UNAVAILABLE`. -/
def ERR_UNAVAILABLE : Int := -28

/-- Modelled from the spec: kernel status `ERR_ACCESS_DENIED`. -/
def ERR_ACCESS_DENIED : Int := -30

/-- Modelled from the spec: kernel status `ERR_IO`. -/
def ERR_IO : Int := -40

/-- Modelled from the spec: kernel status `ERR_BAD_PATH`. -/
def ERR_BAD_PATH : Int := -50

/-- Modelled from the spec: kernel status `ERR_NOT_DIR`. -/
def ERR_NOT_DIR : Int := -51

/-- Modelled from the spec: kernel status `ERR_FILE_BIG`. -/
def ERR_FILE_BIG : Int := -53

/-- Modelled from the spec: kernel status `ERR_NO_SPACE`. -/
def ERR_NO_SPACE : Int := -54

/-- Modelled from the spec: errno `ENOENT`; errno values come from the libc
headers that are not under `src/` — only distinctness matters. -/
def ENOENT : Nat := 2

/-- Modelled from the spec: errno `EIO`; the trailing underscore avoids
a clash with a name Lean already defines. -/
def EIO_ : Nat := 5

/-- Modelled from the spec: errno `EBADF`. -/
def EBADF : Nat := 9

/-- Modelled from the spec: errno `EAGAIN`. -/
def EAGAIN : Nat := 11

/-- Modelled from the spec: errno `ENOMEM`. -/
def ENOMEM : Nat := 12

/-- Modelled from the spec: errno `EACCES`. -/
def EACCES : Nat := 13

/-- Modelled from the spec: errno `EEXIST`. -/
def EEXIST : Nat := 17

/-- Modelled from the spec: errno `ENOTDIR`. -/
def ENOTDIR : Nat := 20

/-- Modelled from the spec: errno `EINVAL`. -/
def EINVAL : Nat := 22

/-- Modelled from the spec: errno `EMFILE`. -/
def EMFILE : Nat := 24

/-- Modelled from the spec: errno `EFBIG`. -/
def EFBIG : Nat := 27

/-- Modelled from the spec: errno `ENOSPC`. -/
def ENOSPC : Nat := 28

/-- Modelled from the spec: errno `ENAMETOOLONG`. -/
def ENAMETOOLONG : Nat := 36

/-- Modelled from the spec: errno `ENOSYS`. -/
def ENOSYS : Nat := 38

/-- Modelled from the spec: errno `ENOTSUP`. -/
def ENOTSUP : Nat := 95

/-- Modelled from the spec: errno `ENOTCONN`. -/
def ENOTCONN : Nat := 107

/-- Modelled from the spec: errno `ETIMEDOUT`. -/
def ETIMEDOUT : Nat := 110

/-- Modelled from the spec: `MAX_FD` (§3 FdTable, default 1024); the macro
`MAX_MXIO_FD` lives in a private header not under `src/`. -/
def MAX_MXIO_FD : Nat := 1024

/-- Modelled from the spec: `PATH_MAX` (§4.4), from `limits.h`. -/
def PATH_MAX : Nat := 4096

/-- Modelled from the spec: the NONBLOCK bit of the io flag word (§3);
the numeric value of `MXIO_FLAG_NONBLOCK` is in a header not under
`src/` — only the bit's identity matters. -/
def MXIO_FLAG_NONBLOCK : Nat := 16

/-- Translation of `mxio_status_to_errno` (unistd.c:574-598): the closed
kernel-status → errno table with `EIO_` as catch-all. -/
def mxio_status_to_errno (status : Int) : Nat :=
  if status = ERR_NOT_FOUND then ENOENT
  else if status = ERR_NO_MEMORY then ENOMEM
  else if status = ERR_INVALID_ARGS then EINVAL
  else if status = ERR_BUFFER_TOO_SMALL then EINVAL
  else if status = ERR_TIMED_OUT then ETIMEDOUT
  else if status = ERR_ALREADY_EXISTS then EEXIST
  else if status = ERR_REMOTE_CLOSED then ENOTCONN
  else if status = ERR_BAD_PATH then ENAMETOOLONG
  else if status = ERR_IO then EIO_
  else if status = ERR_NOT_DIR then ENOTDIR
  else if status = ERR_NOT_SUPPORTED then ENOTSUP
  else if status = ERR_OUT_OF_RANGE then EINVAL
  else if status = ERR_NO_RESOURCES then ENOMEM
  else if status = ERR_BAD_HANDLE then EBADF
  else if status = ERR_ACCESS_DENIED then EACCES
  else if status = ERR_SHOULD_WAIT then EAGAIN
  else if status = ERR_FILE_BIG then EFBIG
  else if status = ERR_NO_SPACE then ENOSPC
  else EIO_

/-- A POSIX-boundary return value: the function result plus the errno it
set, `none` when errno is left untouched. -/
structure PosixRet where
  ret : Int
  errno : Option Nat
deriving DecidableEq

/-- Modelled from the spec: the `STATUS(x)` macro of the private header
(not under `src/`) — negative statuses become `-1` with errno translated
(§7 propagation policy), non-negative values pass through. -/
def STATUS (x : Int) : PosixRet :=
  if x < 0 then ⟨-1, some (mxio_status_to_errno x)⟩ else ⟨x, none⟩

/-- Modelled from the spec: the `ERRNO(e)` macro — return `-1` with errno
set to `e`. -/
def ERRNO (e : Nat) : PosixRet := ⟨-1, some e⟩

/-- Modelled from the spec: the `ERROR(r)` macro — return `-1` with errno
set to the translation of status `r`. -/
def ERROR (r : Int) : PosixRet := ⟨-1, some (mxio_status_to_errno r)⟩

/-- The free-slot scan of `mxio_bind_to_fd` (unistd.c:69-73): the first
slot in `[start, MAX_MXIO_FD)` holding no io, scanned one slot per unit
of fuel (`MAX_MXIO_FD` fuel is always enough). -/
def scanFree {α : Type} (tab : Nat → Option α) : Nat → Nat → Option Nat
  | 0, _ => none
  | fuel+1, fd =>
    if MAX_MXIO_FD ≤ fd then none
    else if (tab fd).isNone then some fd
    else scanFree tab fuel (fd+1)

namespace FdOps

/-- The fd-table view of an io object used by bind/unbind: its atomic
`refcount` and table-lock-protected `dupcount` (§3 data model). -/
structure Mxio where
  refcount : Nat
  dupcount : Nat
deriving DecidableEq

/-- Result of `mxio_unbind_from_fd`: the returned status, the fd table
after the call, and the io handed out through `*out` (if any). -/
structure UnbindResult where
  status : Int
  tab : Nat → Option Mxio
  out : Option Mxio

/-- Translation of `mxio_unbind_from_fd` (unistd.c:109-136).  The C code
checks `fd >= MAX_MXIO_FD` but never `fd < 0`; for a negative fd it
indexes `mxio_fdtab[fd]` out of bounds, which is undefined behavior and
is modelled as `none`. -/
def mxio_unbind_from_fd (fd : Int) (tab : Nat → Option Mxio) :
    Option UnbindResult :=
  if ((MAX_MXIO_FD : Nat) : Int) ≤ fd then some ⟨ERR_INVALID_ARGS, tab, none⟩
  else if fd < 0 then none
  else
    match tab fd.toNat with
    | none => some ⟨ERR_INVALID_ARGS, tab, none⟩
    | some io =>
      if 1 < io.dupcount then some ⟨ERR_UNAVAILABLE, tab, none⟩
      else if 1 < io.refcount then some ⟨ERR_UNAVAILABLE, tab, none⟩
      else some ⟨NO_ERROR, fun m => if m = fd.toNat then none else tab m,
                 some { io with dupcount := 0 }⟩

/-- Result of `mxio_bind_to_fd`: return value, errno, the fd table after
the call, and the io that got transport-closed on eviction (if any). -/
structure BindResult where
  ret : Int
  errno : Option Nat
  tab : Nat → Option Mxio
  closed : Option Mxio

/-- Translation of `mxio_bind_to_fd` (unistd.c:62-103).  A negative
`fd` requests the lowest free slot at or above `starting_fd`; a slot
`≥ MAX_MXIO_FD` is rejected with `EINVAL`; otherwise the occupant (if
any) loses one dupcount and is transport-closed when that reaches 0. -/
def mxio_bind_to_fd (io : Mxio) (fd : Int) (starting_fd : Nat)
    (tab : Nat → Option Mxio) : BindResult :=
  if fd < 0 then
    match scanFree tab MAX_MXIO_FD starting_fd with
    | none => ⟨-1, some EMFILE, tab, none⟩
    | some k =>
      ⟨(k : Int), none,
       fun m => if m = k then some { io with dupcount := io.dupcount + 1 }
                else tab m, none⟩
  else if ((MAX_MXIO_FD : Nat) : Int) ≤ fd then ⟨-1, some EINVAL, tab, none⟩
  else
    match tab fd.toNat with
    | none =>
      ⟨fd, none,
       fun m => if m = fd.toNat then some { io with dupcount := io.dupcount + 1 }
                else tab m, none⟩
    | some old =>
      ⟨fd, none,
       fun m => if m = fd.toNat then some { io with dupcount := io.dupcount + 1 }
                else tab m,
       if 0 < old.dupcount - 1 then none
       else some { old with dupcount := old.dupcount - 1 }⟩

/-- The empty fd table. -/
def emptyFdTab : Nat → Option Mxio := fun _ => none

/-- A table whose only occupant sits at slot 5 with one dup and one
reference. -/
def soloTab : Nat → Option Mxio :=
  fun k => if k = 5 then some ⟨1, 1⟩ else none

/-- A table whose only occupant sits at slot 0, so the first free slot
from 0 is slot 1. -/
def headTab : Nat → Option Mxio :=
  fun k => if k = 0 then some ⟨1, 1⟩ else none

end FdOps

namespace Cwd

/-- The segment-delimiter test used by the `strchr(path, '/')` split. -/
def isNotSlash (c : Char) : Bool := c != '/'

/-- The `"(unknown)"` sentinel installed by the `wat:` label of
`update_cwd_path` (unistd.c:279-281). -/
def unknownPath : List Char := ['(', 'u', 'n', 'k', 'n', 'o', 'w', 'n', ')']

/-- Index of the last `'/'` in a string — `strrchr(s, '/')`
(unistd.c:250). -/
def lastSlashIdx : List Char → Option Nat
  | [] => none
  | c :: rest =>
    match lastSlashIdx rest with
    | some i => some (i + 1)
    | none => if c = '/' then some 0 else none

/-- One segment of the `update_cwd_path` loop body (unistd.c:240-276):
skip empty and `"."` segments, strip the trailing cwd segment for
`".."` (never removing the leading slash), append any other segment
(with a separator unless the cwd has length 1); `none` is the `goto
wat` overflow/corruption path. -/
def cwdStep (cwd seg : List Char) : Option (List Char) :=
  if seg = [] then some cwd
  else if seg = ['.'] then some cwd
  else if seg = ['.', '.'] then
    match lastSlashIdx cwd with
    | none => none
    | some i => if i = 0 then some (cwd.take 1) else some (cwd.take i)
  else if PATH_MAX ≤ cwd.length + seg.length + 2 then none
  else if cwd.length ≠ 1 then some (cwd ++ '/' :: seg)
  else some (cwd ++ seg)

/-- The segment loop of `update_cwd_path` (unistd.c:229-276): split the
path at each `'/'`, feed every segment to `cwdStep`, and stop with the
`"(unknown)"` sentinel as soon as a step hits the `wat:` path.  The C
loop advances the path pointer past at least one character per
iteration, so `path.length` fuel always suffices. -/
def cwdLoop : Nat → List Char → List Char → List Char
  | _, [], cwd => cwd
  | 0, _ :: _, cwd => cwd
  | fuel+1, p, cwd =>
    let seg := p.takeWhile isNotSlash
    let rest := (p.dropWhile isNotSlash).drop 1
    match cwdStep cwd seg with
    | none => unknownPath
    | some cwd' => cwdLoop fuel rest cwd'

/-- Translation of `update_cwd_path` (unistd.c:220-282): an absolute
path resets the cwd string to `"/"` and is then parsed relative to it;
the resulting segments are folded through `cwdStep`. -/
def update_cwd_path (path cwd : List Char) : List Char :=
  match path with
  | '/' :: rest => cwdLoop rest.length rest ['/']
  | p => cwdLoop p.length p cwd

/-- Joins path segments with `'/'` separators (no leading slash):
`joinSegs [a, b, c] = a ++ "/" ++ b ++ "/" ++ c`.  Specification-side
helper used to state the normal form of a cwd string. -/
def joinSegs : List (List Char) → List Char
  | [] => []
  | [s] => s
  | s :: rest => s ++ '/' :: joinSegs rest

/-- The absolute normalized path made of the given segments:
`"/"` when there are none, `"/a/b"` for `[a, b]`.  Specification-side
helper for the idempotence claim. -/
def normOfSegs (segs : List (List Char)) : List Char :=
  '/' :: joinSegs segs

/-- The concatenation `"/s₁/s₂…"` appended to a cwd by the segment loop;
specification-side helper. -/
def segsPath : List (List Char) → List Char
  | [] => []
  | s :: rest => '/' :: s ++ segsPath rest

end Cwd

namespace Rw

/-- The io-object view used by `read`/`write`/`pread`/`pwrite`: the flag
word and, for each of the four transport entry points, the status the
transport returns on the n-th invocation within one POSIX call (§4.1
vtable contract — `ERR_SHOULD_WAIT` means "not ready"). -/
structure Mxio where
  flags : Nat
  readAtt : Nat → Int
  writeAtt : Nat → Int
  readAtAtt : Nat → Int
  writeAtAtt : Nat → Int

/-- Translation of `__mxio_fd_to_io` (unistd.c:138-149): `null` for an
fd that is negative, at least `MAX_MXIO_FD`, or unbound. -/
def fd_to_io (fd : Int) (tab : Nat → Option Mxio) : Option Mxio :=
  if fd < 0 ∨ ((MAX_MXIO_FD : Nat) : Int) ≤ fd then none
  else tab fd.toNat

/-- Result of a POSIX read/write call: return value, errno, whether the
fd table was consulted, and how many times the call blocked in
`mxio_wait_fd`. -/
structure RwResult where
  ret : Int
  errno : Option Nat
  lookedUp : Bool
  waits : Nat
deriving DecidableEq

/-- The retry loop shared by `read`/`write`/`pread`/`pwrite`
(unistd.c:666-672): invoke the transport; stop as soon as the status is
not `ERR_SHOULD_WAIT` or the NONBLOCK flag is set, otherwise block in
`mxio_wait_fd(fd, …, MX_TIME_INFINITE)` and retry.  Returns the final
transport status together with the number of completed waits; `none`
models the loop never exiting within the given fuel. -/
def ioLoop (att : Nat → Int) (flags : Nat) : Nat → Nat → Option (Int × Nat)
  | 0, _ => none
  | fuel+1, n =>
    if att n ≠ ERR_SHOULD_WAIT ∨ flags &&& MXIO_FLAG_NONBLOCK ≠ 0 then
      some (att n, n)
    else ioLoop att flags fuel (n + 1)

/-- Translation of `read` (unistd.c:656-675): a null buffer yields
`EINVAL` before any fd lookup; an unbound fd yields `EBADF`; otherwise
the transport read runs under the retry loop and the final status goes
through `STATUS`. -/
def read (buf : Option Unit) (fd : Int) (tab : Nat → Option Mxio)
    (fuel : Nat) : Option RwResult :=
  if buf = none then some ⟨-1, some EINVAL, false, 0⟩
  else
    match fd_to_io fd tab with
    | none => some ⟨-1, some EBADF, true, 0⟩
    | some io =>
      (ioLoop io.readAtt io.flags fuel 0).map
        (fun sn => ⟨(STATUS sn.1).ret, (STATUS sn.1).errno, true, sn.2⟩)

/-- Translation of `write` (unistd.c:677-696), same shape as `read`. -/
def write (buf : Option Unit) (fd : Int) (tab : Nat → Option Mxio)
    (fuel : Nat) : Option RwResult :=
  if buf = none then some ⟨-1, some EINVAL, false, 0⟩
  else
    match fd_to_io fd tab with
    | none => some ⟨-1, some EBADF, true, 0⟩
    | some io =>
      (ioLoop io.writeAtt io.flags fuel 0).map
        (fun sn => ⟨(STATUS sn.1).ret, (STATUS sn.1).errno, true, sn.2⟩)

/-- Translation of `pread` (unistd.c:719-738); the offset is folded into
the transport oracle `readAtAtt`. -/
def pread (buf : Option Unit) (fd : Int) (tab : Nat → Option Mxio)
    (fuel : Nat) : Option RwResult :=
  if buf = none then some ⟨-1, some EINVAL, false, 0⟩
  else
    match fd_to_io fd tab with
    | none => some ⟨-1, some EBADF, true, 0⟩
    | some io =>
      (ioLoop io.readAtAtt io.flags fuel 0).map
        (fun sn => ⟨(STATUS sn.1).ret, (STATUS sn.1).errno, true, sn.2⟩)

/-- Translation of `pwrite` (unistd.c:761-780). -/
def pwrite (buf : Option Unit) (fd : Int) (tab : Nat → Option Mxio)
    (fuel : Nat) : Option RwResult :=
  if buf = none then some ⟨-1, some EINVAL, false, 0⟩
  else
    match fd_to_io fd tab with
    | none => some ⟨-1, some EBADF, true, 0⟩
    | some io =>
      (ioLoop io.writeAtAtt io.flags fuel 0).map
        (fun sn => ⟨(STATUS sn.1).ret, (STATUS sn.1).errno, true, sn.2⟩)

/-- The empty fd table for the read/write model. -/
def rwEmptyTab : Nat → Option Mxio := fun _ => none

/-- An io whose transport reports `ERR_SHOULD_WAIT` on the first read
attempt and then 7 bytes, with NONBLOCK clear — the blocking-read
scenario. -/
def ioBlocking : Mxio :=
  ⟨0, fun n => if n = 0 then ERR_SHOULD_WAIT else 7,
   fun _ => 0, fun _ => 0, fun _ => 0⟩

/-- An io whose transport always reports `ERR_SHOULD_WAIT` on read, with
NONBLOCK set — the `EAGAIN` scenario. -/
def ioNonblock : Mxio :=
  ⟨MXIO_FLAG_NONBLOCK, fun _ => ERR_SHOULD_WAIT,
   fun _ => 0, fun _ => 0, fun _ => 0⟩

/-- A table binding `ioBlocking` at fd 4 and `ioNonblock` at fd 6. -/
def rwTab : Nat → Option Mxio :=
  fun k => if k = 4 then some ioBlocking
           else if k = 6 then some ioNonblock else none

end Rw


namespace Ops5

/-- Modelled from the spec: `UTIME_NOW` (libc header value). -/
def UTIME_NOW : Int := 1073741823

/-- Modelled from the spec: `UTIME_OMIT` (libc header value). -/
def UTIME_OMIT : Int := 1073741822

/-- Modelled from the spec: the `ATTR_MTIME` validity bit of `vnattr`
(§6 STAT buffer); the numeric value is from a header not under `src/`. -/
def ATTR_MTIME : Nat := 32

/-- Translation of the `MX_SEC(n)` macro: seconds to nanoseconds. -/
def MX_SEC (n : Int) : Int := n * 1000000000

/-- The slice of `vnattr` that `mx_utimens` fills in (unistd.c:1128-1149). -/
structure Vnattr where
  valid : Nat
  modify_time : Int
deriving DecidableEq

/-- The io-object view used by the simple fd-centric calls: dupcount for
`close`, a transport `misc` status, a transport `seek` result, a
transport `close` status, and the `setattr` status as a function of the
attribute record sent down. -/
structure Mxio where
  dupcount : Nat
  miscRet : Int
  seekRet : Int
  closeRet : Int
  setattrRet : Vnattr → Int

/-- Translation of `__mxio_fd_to_io` (unistd.c:138-149) over this
namespace's io view. -/
def fd_to_io (fd : Int) (tab : Nat → Option Mxio) : Option Mxio :=
  if fd < 0 ∨ ((MAX_MXIO_FD : Nat) : Int) ≤ fd then none
  else tab fd.toNat

/-- Translation of `close` (unistd.c:782-802): `EBADF` for a negative,
out-of-range, or unbound fd; otherwise the slot is cleared, the
dupcount drops, and the transport close runs only when it reaches 0. -/
def close (fd : Int) (tab : Nat → Option Mxio) :
    PosixRet × (Nat → Option Mxio) :=
  if fd < 0 ∨ ((MAX_MXIO_FD : Nat) : Int) ≤ fd then (ERRNO EBADF, tab)
  else
    match tab fd.toNat with
    | none => (ERRNO EBADF, tab)
    | some io =>
      let tab' := fun m => if m = fd.toNat then none else tab m
      if 0 < io.dupcount - 1 then (⟨NO_ERROR, none⟩, tab')
      else (STATUS io.closeRet, tab')

/-- Translation of `fsync` (unistd.c:1084-1092). -/
def fsync (fd : Int) (tab : Nat → Option Mxio) : PosixRet :=
  match fd_to_io fd tab with
  | none => ERRNO EBADF
  | some io => STATUS io.miscRet

/-- Translation of `ftruncate` (unistd.c:964-972). -/
def ftruncate (fd : Int) (tab : Nat → Option Mxio) : PosixRet :=
  match fd_to_io fd tab with
  | none => ERRNO EBADF
  | some io => STATUS io.miscRet

/-- Translation of `lseek` (unistd.c:924-935): the transport seek result
passes through unless negative, in which case it is translated by
`ERROR`. -/
def lseek (fd : Int) (tab : Nat → Option Mxio) : PosixRet :=
  match fd_to_io fd tab with
  | none => ERRNO EBADF
  | some io =>
    if io.seekRet < 0 then ERROR io.seekRet else ⟨io.seekRet, none⟩

/-- Translation of `mx_utimens` (unistd.c:1128-1149).  `times` is the
`times[1]` entry as `(tv_sec, tv_nsec)`, `none` for a NULL array; `now`
stands for `mx_time_get(MX_CLOCK_UTC)`.  The io pointer is dereferenced
unconditionally, so a `none` io (NULL pointer) has no defined result. -/
def mx_utimens (io : Option Mxio) (times : Option (Int × Int)) (now : Int) :
    Option Int :=
  let vn : Vnattr :=
    { valid :=
        if times = none ∨ (times.map Prod.snd).getD 0 ≠ UTIME_OMIT
        then ATTR_MTIME else 0
      modify_time :=
        if times = none ∨ (times.map Prod.snd).getD 0 = UTIME_NOW
        then now
        else MX_SEC ((times.map Prod.fst).getD 0) + (times.map Prod.snd).getD 0 }
  match io with
  | none => none
  | some i =>
    let r := i.setattrRet vn
    some (if r < 0 then ERR_BAD_HANDLE else r)

/-- Translation of `futimens` (unistd.c:1172-1177): the `fd_to_io`
result is passed to `mx_utimens` with no NULL check, so an absent fd
dereferences a null pointer — modelled as `none`. -/
def futimens (fd : Int) (times : Option (Int × Int)) (now : Int)
    (tab : Nat → Option Mxio) : Option PosixRet :=
  (mx_utimens (fd_to_io fd tab) times now).map STATUS

/-- The empty fd table for this model. -/
def opsEmptyTab : Nat → Option Mxio := fun _ => none

end Ops5

namespace Open6

/-- Modelled from the spec: `O_CREAT` (libc fcntl.h value 0o100). -/
def O_CREAT : Nat := 64

/-- Modelled from the spec: `O_DIRECTORY` (libc fcntl.h value 0o200000). -/
def O_DIRECTORY : Nat := 65536

/-- Modelled from the spec: `O_NONBLOCK` (libc fcntl.h value 0o4000). -/
def O_NONBLOCK : Nat := 2048

/-- Modelled from the spec: the `AT_FDCWD` sentinel (§4.3). -/
def AT_FDCWD : Int := -100

/-- The io-object view used by the open path: just the flag word. -/
structure Mxio where
  flags : Nat
deriving DecidableEq

/-- The state `vopenat` touches: the fd table, the cwd string, and the
base-directory transport's `open` entry point (standing in for
`iodir->ops->open`, resolved via root/cwd/dirfd by `mxio_iodir`). -/
structure OpenSt where
  fdtab : Nat → Option Mxio
  cwdPath : List Char
  topen : List Char → Nat → Nat → Int × Mxio

/-- Result of `vopenat`: return value, errno, the state after the call,
and whether any transport open was invoked. -/
structure OpenResult where
  ret : Int
  errno : Option Nat
  st : OpenSt
  transportCalled : Bool

/-- Translation of `vopenat` (unistd.c:1021-1048) composed with
`__mxio_open_at` (unistd.c:198-214): `O_CREAT|O_DIRECTORY` is rejected
with `EINVAL` before anything else runs; a NULL or empty path is
`ERR_INVALID_ARGS`; otherwise the transport open runs, `O_NONBLOCK`
sets the NONBLOCK flag, and the new io is bound to the lowest free fd
(any bind failure turns into `EMFILE`). -/
def vopenat (path : Option (List Char)) (flags mode_arg : Nat)
    (st : OpenSt) : OpenResult :=
  if flags &&& O_CREAT ≠ 0 ∧ flags &&& O_DIRECTORY ≠ 0 then
    ⟨-1, some EINVAL, st, false⟩
  else
    let mode := if flags &&& O_CREAT ≠ 0 then mode_arg &&& 511 else 0
    match path with
    | none => ⟨-1, some (mxio_status_to_errno ERR_INVALID_ARGS), st, false⟩
    | some p =>
      if p = [] then
        ⟨-1, some (mxio_status_to_errno ERR_INVALID_ARGS), st, false⟩
      else
        let r := st.topen p flags mode
        if r.1 < 0 then ⟨-1, some (mxio_status_to_errno r.1), st, true⟩
        else
          let nio := if flags &&& O_NONBLOCK ≠ 0 then
              { r.2 with flags := r.2.flags ||| MXIO_FLAG_NONBLOCK }
            else r.2
          match scanFree st.fdtab MAX_MXIO_FD 0 with
          | none => ⟨-1, some EMFILE, st, true⟩
          | some k =>
            ⟨(k : Int), none,
             { st with fdtab := fun m => if m = k then some nio else st.fdtab m },
             true⟩

/-- Translation of `open` (unistd.c:1050-1056): `vopenat` at `AT_FDCWD`;
the dirfd only affects `mxio_iodir`'s choice of base io, which the
`topen` oracle already stands for. -/
def open' (path : Option (List Char)) (flags mode_arg : Nat)
    (st : OpenSt) : OpenResult :=
  vopenat path flags mode_arg st

/-- Translation of `openat` (unistd.c:1058-1064). -/
def openat (path : Option (List Char)) (flags mode_arg : Nat)
    (st : OpenSt) : OpenResult :=
  vopenat path flags mode_arg st

/-- A concrete open state for witnesses: empty fd table, root cwd, and a
transport that opens everything successfully. -/
def st0 : OpenSt :=
  ⟨fun _ => none, ['/'], fun _ _ _ => (NO_ERROR, ⟨0⟩)⟩

end Open6

namespace Poll

/-- `MAX_POLL_NFDS` (unistd.c:1444). -/
def MAX_POLL_NFDS : Nat := 1024

/-- Modelled from the spec: `POLLNVAL` (poll.h value 0x20). -/
def POLLNVAL : Nat := 32

/-- Modelled from the spec: `EPOLLERR` (epoll.h value 0x8). -/
def EPOLLERR : Nat := 8

/-- Modelled from the spec: `EPOLLHUP` (epoll.h value 0x10). -/
def EPOLLHUP : Nat := 16

/-- The io-object view `poll` needs: `wait_begin` maps requested POSIX
event bits to a kernel handle and signal mask (handle 0 standing for
`MX_HANDLE_INVALID`), `wait_end` maps pending signals back to event
bits (§4.1). -/
structure PollIo where
  waitBegin : Nat → Int × Nat
  waitEnd : Nat → Nat

/-- One `struct pollfd`. -/
structure PollFd where
  fd : Int
  events : Nat
  revents : Nat
deriving DecidableEq

/-- Translation of `__mxio_fd_to_io` (unistd.c:138-149) over this
namespace's io view. -/
def fd_to_io (fd : Int) (tab : Nat → Option PollIo) : Option PollIo :=
  if fd < 0 ∨ ((MAX_MXIO_FD : Nat) : Int) ≤ fd then none
  else tab fd.toNat

/-- The setup loop of `poll` (unistd.c:1459-1489): zero each entry's
revents, skip negative fds, mark unbound fds with `POLLNVAL`, and for
each bound fd run `wait_begin`, aborting the walk with
`ERR_INVALID_ARGS` on an invalid handle.  Returns the processed pollfd
list (entries after an abort untouched), the per-entry io (None for
skipped entries), the wait items in entry order, and the loop status. -/
def pollPhase1 (tab : Nat → Option PollIo) :
    List PollFd →
    List PollFd × List (Option PollIo) × List (Int × Nat) × Int
  | [] => ([], [], [], NO_ERROR)
  | pfd :: rest =>
    if pfd.fd < 0 then
      ({ pfd with revents := 0 } :: (pollPhase1 tab rest).1,
       none :: (pollPhase1 tab rest).2.1,
       (pollPhase1 tab rest).2.2.1, (pollPhase1 tab rest).2.2.2)
    else
      match fd_to_io pfd.fd tab with
      | none =>
        ({ pfd with revents := POLLNVAL } :: (pollPhase1 tab rest).1,
         none :: (pollPhase1 tab rest).2.1,
         (pollPhase1 tab rest).2.2.1, (pollPhase1 tab rest).2.2.2)
      | some io =>
        if (io.waitBegin pfd.events).1 = 0 then
          ({ pfd with revents := 0 } :: rest, [], [], ERR_INVALID_ARGS)
        else
          ({ pfd with revents := 0 } :: (pollPhase1 tab rest).1,
           some io :: (pollPhase1 tab rest).2.1,
           io.waitBegin pfd.events :: (pollPhase1 tab rest).2.2.1,
           (pollPhase1 tab rest).2.2.2)

/-- The collection loop of `poll` (unistd.c:1497-1517): walk the entries
again; each looked-up entry consumes one pending-signal word, runs
`wait_end`, masks the events to `events | EPOLLHUP | EPOLLERR`, stores
them as revents, and counts the entries whose masked revents are
nonzero. -/
def pollPhase2 :
    List PollFd → List (Option PollIo) → List Nat → List PollFd × Nat
  | [], _, _ => ([], 0)
  | pfd :: fds, [], ps =>
    (pfd :: (pollPhase2 fds [] ps).1, (pollPhase2 fds [] ps).2)
  | pfd :: fds, none :: ios, pendings =>
    (pfd :: (pollPhase2 fds ios pendings).1, (pollPhase2 fds ios pendings).2)
  | pfd :: fds, some _ :: ios, [] =>
    (pfd :: (pollPhase2 fds ios []).1, (pollPhase2 fds ios []).2)
  | pfd :: fds, some io :: ios, p :: ps =>
    ({ pfd with
        revents := io.waitEnd p &&& (pfd.events ||| EPOLLHUP ||| EPOLLERR) }
      :: (pollPhase2 fds ios ps).1,
     (if io.waitEnd p &&& (pfd.events ||| EPOLLHUP ||| EPOLLERR) ≠ 0
      then 1 else 0) + (pollPhase2 fds ios ps).2)

/-- Result of `poll`: return value, errno, the pollfd array after the
call, and whether the kernel multi-wait (`mx_object_wait_many`) ran. -/
structure PollResult where
  ret : Int
  errno : Option Nat
  fds : List PollFd
  kernelCalled : Bool

/-- The tail of `poll` (unistd.c:1491-1527): run the kernel multi-wait
(the oracle `kernel`, taking the wait items and the deadline — `none`
for `MX_TIME_INFINITE`, reached when `timeout < 0` — and returning the
wait status plus the pending signals per item) when the setup walk
succeeded and produced at least one item, then collect the results. -/
def pollFinish (fds1 : List PollFd) (ios : List (Option PollIo))
    (items : List (Int × Nat)) (r : Int)
    (kernel : List (Int × Nat) → Option Int → Int × List Nat)
    (timeout : Int) : PollResult :=
  if r = NO_ERROR ∧ 0 < items.length then
    if (kernel items (if 0 ≤ timeout then some timeout else none)).1 =
        NO_ERROR ∨
       (kernel items (if 0 ≤ timeout then some timeout else none)).1 =
        ERR_TIMED_OUT then
      ⟨((pollPhase2 fds1 ios
          (kernel items (if 0 ≤ timeout then some timeout else none)).2).2
          : Int),
       none,
       (pollPhase2 fds1 ios
         (kernel items (if 0 ≤ timeout then some timeout else none)).2).1,
       true⟩
    else
      ⟨-1,
       some (mxio_status_to_errno
         (kernel items (if 0 ≤ timeout then some timeout else none)).1),
       fds1, true⟩
  else if r = NO_ERROR then ⟨0, none, fds1, false⟩
  else ⟨-1, some (mxio_status_to_errno r), fds1, false⟩

/-- Translation of `poll` (unistd.c:1446-1528): reject more than
`MAX_POLL_NFDS` entries with `EINVAL`, run the setup walk, then finish
through the kernel wait. -/
def poll (fds : List PollFd) (tab : Nat → Option PollIo)
    (kernel : List (Int × Nat) → Option Int → Int × List Nat)
    (timeout : Int) : PollResult :=
  if MAX_POLL_NFDS < fds.length then ⟨-1, some EINVAL, fds, false⟩
  else
    pollFinish (pollPhase1 tab fds).1 (pollPhase1 tab fds).2.1
      (pollPhase1 tab fds).2.2.1 (pollPhase1 tab fds).2.2.2 kernel timeout

/-- The Boolean "this entry was looked up and reported ready" predicate
used to state the `poll` return-value property: the entry's fd is
bound in the table and its (masked) revents are nonzero. -/
def isReadyEntry (tab : Nat → Option PollIo) (e : PollFd) : Bool :=
  (fd_to_io e.fd tab).isSome && decide (e.revents ≠ 0)

/-- The per-entry relation between an input pollfd and the corresponding
output entry of a successful `poll`: fd and requested events are
preserved, a negative fd keeps zero revents, and an unbound fd is
marked `POLLNVAL`.  Specification-side helper. -/
def entryRel (tab : Nat → Option PollIo) (a b : PollFd) : Prop :=
  b.fd = a.fd ∧ b.events = a.events ∧
  (a.fd < 0 → b.revents = 0) ∧
  (¬ a.fd < 0 → fd_to_io a.fd tab = none → b.revents = POLLNVAL)

/-- An io whose `wait_begin` yields the invalid handle. -/
def pioInvalid : PollIo := ⟨fun _ => (0, 0), fun _ => 0⟩

/-- An io whose `wait_begin` yields handle 5 and whose `wait_end`
reports the pending word as the event bits. -/
def pioOk : PollIo := ⟨fun ev => (5, ev), fun p => p⟩

/-- A table binding `pioOk` at fd 3 and `pioInvalid` at fd 9. -/
def ptab0 : Nat → Option PollIo :=
  fun k => if k = 3 then some pioOk
           else if k = 9 then some pioInvalid else none

/-- The empty table for the poll model. -/
def pollEmptyTab : Nat → Option PollIo := fun _ => none

/-- A kernel oracle that reports every waited item as pending with
signal word 1 and returns `NO_ERROR`. -/
def kernelAll1 : List (Int × Nat) → Option Int → Int × List Nat :=
  fun items _ => (NO_ERROR, items.map (fun _ => 1))

end Poll

/-!
## Theorems

Each claim of the specification is settled by one theorem below; helper
lemmas about the embedded loops come first.
-/

theorem scanFree_eq_none {α : Type} (tab : Nat → Option α) :
    ∀ (fuel start : Nat),
    (∀ j, start ≤ j → j < MAX_MXIO_FD → tab j ≠ none) →
    scanFree tab fuel start = none := by
  intro fuel
  induction fuel with
  | zero => intro start _; rfl
  | succ f ih =>
    intro start h
    unfold scanFree
    by_cases hs : MAX_MXIO_FD ≤ start
    · rw [if_pos hs]
    · rw [if_neg hs]
      have ht : ¬ (tab start).isNone = true := by
        simp only [Option.isNone_iff_eq_none]
        exact h start le_rfl (by omega)
      rw [if_neg ht]
      exact ih (start + 1) (fun j hj1 hj2 => h j (by omega) hj2)

theorem scanFree_eq_some {α : Type} (tab : Nat → Option α) :
    ∀ (fuel start k : Nat), start ≤ k → k < MAX_MXIO_FD → tab k = none →
    (∀ j, start ≤ j → j < k → tab j ≠ none) → k < start + fuel →
    scanFree tab fuel start = some k := by
  intro fuel
  induction fuel with
  | zero => intro start k h1 _ _ _ h5; omega
  | succ f ih =>
    intro start k h1 h2 h3 h4 h5
    unfold scanFree
    rw [if_neg (by omega)]
    rcases Nat.eq_or_lt_of_le h1 with rfl | hlt
    · rw [if_pos (by simp [h3])]
    · have hne : ¬ (tab start).isNone = true := by
        simp only [Option.isNone_iff_eq_none]
        exact h4 start le_rfl hlt
      rw [if_neg hne]
      exact ih (start + 1) k (by omega) h2 h3
        (fun j hj1 hj2 => h4 j (by omega) hj2) (by omega)

namespace FdOps

/-- Claim C1, counterexample: the claim says that an out-of-range fd
yields `ERR_INVALID_ARGS`, but `mxio_unbind_from_fd` only checks
`fd >= MAX_MXIO_FD`; for the out-of-range fd `-1` it indexes the fd
table out of bounds, so the call has no defined result at all. -/
theorem C1_counterexample :
    mxio_unbind_from_fd (-1) emptyFdTab = none := rfl

/-- Claim C1 (amended to nonnegative fds): for `0 ≤ fd`,
`mxio_unbind_from_fd` fails with `ERR_UNAVAILABLE` when the bound
object's dupcount or refcount exceeds 1, leaving the table and the
object untouched; with `dupcount = 1` and `refcount = 1` it succeeds,
zeroing the dupcount, clearing the slot and handing the object to the
caller; an fd at or above `MAX_MXIO_FD`, or an unbound one, yields
`ERR_INVALID_ARGS`. -/
theorem C1_unbind_amended (fd : Int) (tab : Nat → Option Mxio)
    (hfd : 0 ≤ fd) :
    (((MAX_MXIO_FD : Nat) : Int) ≤ fd →
      mxio_unbind_from_fd fd tab = some ⟨ERR_INVALID_ARGS, tab, none⟩) ∧
    (fd < ((MAX_MXIO_FD : Nat) : Int) → tab fd.toNat = none →
      mxio_unbind_from_fd fd tab = some ⟨ERR_INVALID_ARGS, tab, none⟩) ∧
    (∀ io, fd < ((MAX_MXIO_FD : Nat) : Int) → tab fd.toNat = some io →
      ((1 < io.dupcount ∨ 1 < io.refcount) →
        mxio_unbind_from_fd fd tab = some ⟨ERR_UNAVAILABLE, tab, none⟩) ∧
      (io.dupcount = 1 → io.refcount = 1 →
        mxio_unbind_from_fd fd tab =
          some ⟨NO_ERROR, fun m => if m = fd.toNat then none else tab m,
                some { io with dupcount := 0 }⟩)) := by
  refine ⟨?_, ?_, ?_⟩
  · intro h
    unfold mxio_unbind_from_fd
    rw [if_pos h]
  · intro h1 h2
    unfold mxio_unbind_from_fd
    rw [if_neg (by omega), if_neg (by omega), h2]
  · intro io h1 h2
    constructor
    · intro h3
      unfold mxio_unbind_from_fd
      rw [if_neg (by omega), if_neg (by omega), h2]
      by_cases hd : 1 < io.dupcount
      · simp [hd]
      · have hr : 1 < io.refcount := h3.resolve_left hd
        simp [hd, hr]
    · intro h4 h5
      unfold mxio_unbind_from_fd
      rw [if_neg (by omega), if_neg (by omega), h2]
      simp [h4, h5]

/-- Witness for C1: on a table whose slot 5 holds an object with one
dup and one reference, unbind succeeds, clears the slot and hands out
the object with dupcount zeroed. -/
theorem C1_witness :
    mxio_unbind_from_fd 5 soloTab =
      some ⟨NO_ERROR, fun m => if m = 5 then none else soloTab m,
            some ⟨1, 0⟩⟩ :=
  ((C1_unbind_amended 5 soloTab (by decide)).2.2 ⟨1, 1⟩ (by decide) rfl).2
    rfl rfl

/-- Claim C2: with a negative desired fd, `mxio_bind_to_fd` installs the
io (dupcount incremented) at the lowest free slot in
`[starting_fd, MAX_MXIO_FD)` and returns that index; when every slot in
that range is occupied it returns `-1` with errno `EMFILE` and the table
unchanged; a desired fd at or above `MAX_MXIO_FD` returns `-1` with
errno `EINVAL` and the table unchanged. -/
theorem C2_bind_to_fd (io : Mxio) (dfd : Int) (start : Nat)
    (tab : Nat → Option Mxio) :
    (dfd < 0 → ∀ k, start ≤ k → k < MAX_MXIO_FD → tab k = none →
      (∀ j, start ≤ j → j < k → tab j ≠ none) →
      mxio_bind_to_fd io dfd start tab =
        ⟨(k : Int), none,
         fun m => if m = k then some { io with dupcount := io.dupcount + 1 }
                  else tab m, none⟩) ∧
    (dfd < 0 → (∀ j, start ≤ j → j < MAX_MXIO_FD → tab j ≠ none) →
      mxio_bind_to_fd io dfd start tab = ⟨-1, some EMFILE, tab, none⟩) ∧
    (((MAX_MXIO_FD : Nat) : Int) ≤ dfd →
      mxio_bind_to_fd io dfd start tab = ⟨-1, some EINVAL, tab, none⟩) := by
  refine ⟨?_, ?_, ?_⟩
  · intro hneg k hk1 hk2 hk3 hk4
    unfold mxio_bind_to_fd
    rw [if_pos hneg,
        scanFree_eq_some tab MAX_MXIO_FD start k hk1 hk2 hk3 hk4 (by omega)]
  · intro hneg hfull
    unfold mxio_bind_to_fd
    rw [if_pos hneg, scanFree_eq_none tab MAX_MXIO_FD start hfull]
  · intro hge
    unfold mxio_bind_to_fd
    rw [if_neg (by omega), if_pos hge]

/-- Witness for C2: binding with desired fd `-1` into a table whose only
occupant is slot 0 installs the io at slot 1. -/
theorem C2_witness :
    mxio_bind_to_fd ⟨1, 0⟩ (-1) 0 headTab =
      ⟨1, none, fun m => if m = 1 then some ⟨1, 1⟩ else headTab m, none⟩ :=
  (C2_bind_to_fd ⟨1, 0⟩ (-1) 0 headTab).1 (by decide) 1 (by decide)
    (by decide) rfl
    (fun j _ hj => by
      have hj0 : j = 0 := by omega
      subst hj0
      simp [headTab])

end FdOps

namespace Rw

theorem ioLoop_eventual (att : Nat → Int) (flags : Nat)
    (h0 : flags &&& MXIO_FLAG_NONBLOCK = 0) :
    ∀ (n fuel m : Nat),
    (∀ k, m ≤ k → k < m + n → att k = ERR_SHOULD_WAIT) →
    att (m + n) ≠ ERR_SHOULD_WAIT → n < fuel →
    ioLoop att flags fuel m = some (att (m + n), m + n) := by
  intro n
  induction n with
  | zero =>
    intro fuel m _ hstop hf
    obtain ⟨f, rfl⟩ : ∃ f, fuel = f + 1 := ⟨fuel - 1, by omega⟩
    unfold ioLoop
    rw [if_pos (Or.inl (by simpa using hstop))]
    simp
  | succ n ih =>
    intro fuel m hall hstop hf
    obtain ⟨f, rfl⟩ : ∃ f, fuel = f + 1 := ⟨fuel - 1, by omega⟩
    unfold ioLoop
    have hm : att m = ERR_SHOULD_WAIT := hall m le_rfl (by omega)
    rw [if_neg (by simp [hm, h0])]
    have he : m + 1 + n = m + (n + 1) := by omega
    have := ih f (m + 1) (fun k hk1 hk2 => hall k (by omega) (by omega))
      (by rw [he]; exact hstop) (by omega)
    rw [he] at this
    exact this

/-- Claim C3: on a bound fd whose transport read reports
`ERR_SHOULD_WAIT`, `read` returns `-1` with errno `EAGAIN` when the
io's NONBLOCK flag is set; with NONBLOCK clear it blocks in
`mxio_wait_fd` and retries, returning (through `STATUS`) exactly the
first transport result that is not `ERR_SHOULD_WAIT`, after one wait
per unsuccessful attempt. -/
theorem C3_read_blocking (fd : Int) (tab : Nat → Option Mxio) (io : Mxio)
    (fuel n : Nat) (hio : fd_to_io fd tab = some io) :
    (io.readAtt 0 = ERR_SHOULD_WAIT → io.flags &&& MXIO_FLAG_NONBLOCK ≠ 0 →
      0 < fuel →
      read (some ()) fd tab fuel = some ⟨-1, some EAGAIN, true, 0⟩) ∧
    (io.flags &&& MXIO_FLAG_NONBLOCK = 0 →
      (∀ k, k < n → io.readAtt k = ERR_SHOULD_WAIT) →
      io.readAtt n ≠ ERR_SHOULD_WAIT → n < fuel →
      read (some ()) fd tab fuel =
        some ⟨(STATUS (io.readAtt n)).ret, (STATUS (io.readAtt n)).errno,
              true, n⟩) := by
  constructor
  · intro h1 h2 h3
    obtain ⟨f, rfl⟩ : ∃ f, fuel = f + 1 := ⟨fuel - 1, by omega⟩
    simp only [read, if_neg (show ¬ (some () = none) by simp), hio]
    have hl : ioLoop io.readAtt io.flags (f + 1) 0 = some (io.readAtt 0, 0) := by
      unfold ioLoop
      rw [if_pos (Or.inr h2)]
    rw [hl, Option.map_some']
    rw [h1]
    decide
  · intro h0 hall hstop hf
    simp only [read, if_neg (show ¬ (some () = none) by simp), hio]
    have h0n : (0 : Nat) + n = n := by omega
    have hl := ioLoop_eventual io.readAtt io.flags h0 n fuel 0
      (fun k hk1 hk2 => hall k (by omega)) (by rw [h0n]; exact hstop) hf
    rw [h0n] at hl
    rw [hl, Option.map_some']

/-- Witness for C3: at fd 6 (NONBLOCK set, transport always
`ERR_SHOULD_WAIT`) `read` yields `EAGAIN` without waiting; at fd 4
(NONBLOCK clear, transport ready on the second attempt with 7 bytes)
`read` blocks once and returns 7. -/
theorem C3_witness :
    read (some ()) 6 rwTab 1 = some ⟨-1, some EAGAIN, true, 0⟩ ∧
    read (some ()) 4 rwTab 2 = some ⟨7, none, true, 1⟩ := by
  constructor
  · exact (C3_read_blocking 6 rwTab ioNonblock 1 0 rfl).1 rfl (by decide)
      (by decide)
  · exact (C3_read_blocking 4 rwTab ioBlocking 2 1 rfl).2 rfl
      (by decide) (by decide) (by decide)

/-- Claim C9: `read`, `write`, `pread` and `pwrite` reject a null buffer
with errno `EINVAL` before looking up the fd, for every fd (bound or
not) and every fuel, so `EINVAL` takes precedence over `EBADF` and
neither the table nor any io object is consulted. -/
theorem C9_null_buffer (fd : Int) (tab : Nat → Option Mxio) (fuel : Nat) :
    read none fd tab fuel = some ⟨-1, some EINVAL, false, 0⟩ ∧
    write none fd tab fuel = some ⟨-1, some EINVAL, false, 0⟩ ∧
    pread none fd tab fuel = some ⟨-1, some EINVAL, false, 0⟩ ∧
    pwrite none fd tab fuel = some ⟨-1, some EINVAL, false, 0⟩ :=
  ⟨rfl, rfl, rfl, rfl⟩

end Rw

namespace Ops5

/-- Claim C5 (the code contradicts it at `futimens`): the fd-taking
calls reject a negative, out-of-range, or unbound fd with `-1`/`EBADF`
— shown here for `close`, `fsync`, `ftruncate`, `lseek`, and for
`read`/`write` in the read/write model — but `futimens` passes the NULL
lookup result straight into `mx_utimens`, which dereferences it
(`io->ops->misc`), so on fd 999 (unbound) and fd `-1` the call has no
defined result instead of returning `EBADF`. -/
theorem C5_bad_fd_futimens :
    close 999 opsEmptyTab = (ERRNO EBADF, opsEmptyTab) ∧
    close (-1) opsEmptyTab = (ERRNO EBADF, opsEmptyTab) ∧
    fsync 999 opsEmptyTab = ERRNO EBADF ∧
    ftruncate 999 opsEmptyTab = ERRNO EBADF ∧
    lseek 999 opsEmptyTab = ERRNO EBADF ∧
    Rw.read (some ()) 999 Rw.rwEmptyTab 1 = some ⟨-1, some EBADF, true, 0⟩ ∧
    Rw.write (some ()) 999 Rw.rwEmptyTab 1 = some ⟨-1, some EBADF, true, 0⟩ ∧
    Rw.pread (some ()) 999 Rw.rwEmptyTab 1 = some ⟨-1, some EBADF, true, 0⟩ ∧
    Rw.pwrite (some ()) 999 Rw.rwEmptyTab 1 = some ⟨-1, some EBADF, true, 0⟩ ∧
    futimens 999 none 0 opsEmptyTab = none ∧
    futimens (-1) none 0 opsEmptyTab = none :=
  ⟨rfl, rfl, rfl, rfl, rfl, rfl, rfl, rfl, rfl, rfl, rfl⟩

end Ops5

namespace Open6

/-- Claim C6: `open`/`openat` called with flags containing both
`O_CREAT` and `O_DIRECTORY` return `-1` with errno `EINVAL` before any
transport open is invoked, leaving the fd table, the cwd, and every io
object unchanged (the returned state is exactly the input state and the
transport-called flag is false). -/
theorem C6_ocreat_odirectory (path : Option (List Char))
    (flags mode_arg : Nat) (st : OpenSt)
    (hc : flags &&& O_CREAT ≠ 0) (hd : flags &&& O_DIRECTORY ≠ 0) :
    vopenat path flags mode_arg st = ⟨-1, some EINVAL, st, false⟩ ∧
    open' path flags mode_arg st = ⟨-1, some EINVAL, st, false⟩ ∧
    openat path flags mode_arg st = ⟨-1, some EINVAL, st, false⟩ := by
  have h : vopenat path flags mode_arg st = ⟨-1, some EINVAL, st, false⟩ := by
    unfold vopenat
    rw [if_pos ⟨hc, hd⟩]
  exact ⟨h, h, h⟩

/-- Witness for C6: `open("a", O_CREAT|O_DIRECTORY, 0777)` on the
concrete state fails with `EINVAL`, state untouched, transport never
called. -/
theorem C6_witness :
    open' (some ['a']) (O_CREAT ||| O_DIRECTORY) 511 st0 =
      ⟨-1, some EINVAL, st0, false⟩ :=
  (C6_ocreat_odirectory (some ['a']) (O_CREAT ||| O_DIRECTORY) 511 st0
    (by decide) (by decide)).2.1

end Open6

namespace Cwd

theorem lastSlashIdx_no_slash (l : List Char) (h : ('/' : Char) ∉ l) :
    lastSlashIdx l = none := by
  induction l with
  | nil => rfl
  | cons c rest ih =>
    have hc : c ≠ '/' := fun hc => h (hc ▸ List.mem_cons_self c rest)
    have hr : ('/' : Char) ∉ rest := fun hm => h (List.mem_cons_of_mem c hm)
    unfold lastSlashIdx
    rw [ih hr, if_neg hc]

theorem lastSlashIdx_append (a b : List Char) (h : ('/' : Char) ∉ b) :
    lastSlashIdx (a ++ '/' :: b) = some a.length := by
  induction a with
  | nil =>
    rw [List.nil_append]
    unfold lastSlashIdx
    rw [lastSlashIdx_no_slash b h, if_pos rfl]
    rfl
  | cons c a' ih =>
    rw [List.cons_append]
    unfold lastSlashIdx
    rw [ih]
    rfl

theorem takeWhile_no_slash (s : List Char) (h : ('/' : Char) ∉ s) :
    s.takeWhile isNotSlash = s := by
  induction s with
  | nil => rfl
  | cons c s' ih =>
    have hc : c ≠ '/' := fun hc => h (hc ▸ List.mem_cons_self c s')
    have hr : ('/' : Char) ∉ s' := fun hm => h (List.mem_cons_of_mem c hm)
    rw [List.takeWhile_cons, if_pos (by simp [isNotSlash, hc]), ih hr]

theorem dropWhile_no_slash (s : List Char) (h : ('/' : Char) ∉ s) :
    s.dropWhile isNotSlash = [] := by
  induction s with
  | nil => rfl
  | cons c s' ih =>
    have hc : c ≠ '/' := fun hc => h (hc ▸ List.mem_cons_self c s')
    have hr : ('/' : Char) ∉ s' := fun hm => h (List.mem_cons_of_mem c hm)
    rw [List.dropWhile_cons, if_pos (by simp [isNotSlash, hc]), ih hr]

theorem takeWhile_append_slash (s t : List Char) (h : ('/' : Char) ∉ s) :
    (s ++ '/' :: t).takeWhile isNotSlash = s := by
  induction s with
  | nil =>
    rw [List.nil_append, List.takeWhile_cons, if_neg (by simp [isNotSlash])]
  | cons c s' ih =>
    have hc : c ≠ '/' := fun hc => h (hc ▸ List.mem_cons_self c s')
    have hr : ('/' : Char) ∉ s' := fun hm => h (List.mem_cons_of_mem c hm)
    rw [List.cons_append, List.takeWhile_cons,
        if_pos (by simp [isNotSlash, hc]), ih hr]

theorem dropWhile_append_slash (s t : List Char) (h : ('/' : Char) ∉ s) :
    (s ++ '/' :: t).dropWhile isNotSlash = '/' :: t := by
  induction s with
  | nil =>
    rw [List.nil_append, List.dropWhile_cons, if_neg (by simp [isNotSlash])]
  | cons c s' ih =>
    have hc : c ≠ '/' := fun hc => h (hc ▸ List.mem_cons_self c s')
    have hr : ('/' : Char) ∉ s' := fun hm => h (List.mem_cons_of_mem c hm)
    rw [List.cons_append, List.dropWhile_cons,
        if_pos (by simp [isNotSlash, hc]), ih hr]

theorem cwdStep_good (cwd seg : List Char) (h1 : seg ≠ []) (h2 : seg ≠ ['.'])
    (h3 : seg ≠ ['.', '.']) (h4 : cwd.length + seg.length + 2 < PATH_MAX) :
    cwdStep cwd seg =
      some (if cwd.length ≠ 1 then cwd ++ '/' :: seg else cwd ++ seg) := by
  unfold cwdStep
  rw [if_neg h1, if_neg h2, if_neg h3, if_neg (by omega), apply_ite some]

theorem segsPath_eq (s : List Char) (rest : List (List Char)) :
    segsPath (s :: rest) = '/' :: joinSegs (s :: rest) := by
  induction rest generalizing s with
  | nil => simp [segsPath, joinSegs]
  | cons r rs ih =>
    show '/' :: s ++ segsPath (r :: rs) = '/' :: joinSegs (s :: r :: rs)
    rw [ih r]
    show '/' :: (s ++ '/' :: joinSegs (r :: rs)) =
      '/' :: (s ++ '/' :: joinSegs (r :: rs))
    rfl

theorem cwdLoop_segs (segs : List (List Char)) :
    ∀ (cwd : List Char) (fuel : Nat),
    (∀ s ∈ segs, s ≠ [] ∧ ('/' : Char) ∉ s ∧ s ≠ ['.'] ∧ s ≠ ['.', '.']) →
    2 ≤ cwd.length →
    cwd.length + (segsPath segs).length + 2 ≤ PATH_MAX →
    (joinSegs segs).length ≤ fuel →
    cwdLoop fuel (joinSegs segs) cwd = cwd ++ segsPath segs := by
  induction segs with
  | nil =>
    intro cwd fuel _ _ _ _
    show cwdLoop fuel [] cwd = cwd ++ []
    rw [List.append_nil]
    cases fuel <;> rfl
  | cons s rest ih =>
    intro cwd fuel hgood h2 hbound hfuel
    obtain ⟨hne, hns, hd1, hd2⟩ := hgood s (List.mem_cons_self s rest)
    obtain ⟨c, s', rfl⟩ := List.exists_cons_of_ne_nil hne
    cases rest with
    | nil =>
      have hj : joinSegs [c :: s'] = c :: s' := rfl
      rw [hj] at hfuel ⊢
      obtain ⟨f, rfl⟩ : ∃ f, fuel = f + 1 := ⟨fuel - 1, by simp at hfuel; omega⟩
      show (match cwdStep cwd ((c :: s').takeWhile isNotSlash) with
        | none => unknownPath
        | some cwd' =>
          cwdLoop f (((c :: s').dropWhile isNotSlash).drop 1) cwd') =
        cwd ++ segsPath [c :: s']
      rw [takeWhile_no_slash _ hns, dropWhile_no_slash _ hns,
          cwdStep_good cwd (c :: s') hne hd1 hd2
            (by simp [segsPath] at hbound ⊢; omega),
          if_pos (by omega)]
      show cwdLoop f [] (cwd ++ '/' :: c :: s') = cwd ++ segsPath [c :: s']
      have hz : cwdLoop f [] (cwd ++ '/' :: c :: s') = cwd ++ '/' :: c :: s' := by
        cases f <;> rfl
      rw [hz]
      simp [segsPath]
    | cons r rs =>
      have hjoin : joinSegs ((c :: s') :: r :: rs) =
          (c :: s') ++ '/' :: joinSegs (r :: rs) := rfl
      rw [hjoin] at hfuel ⊢
      obtain ⟨f, rfl⟩ : ∃ f, fuel = f + 1 :=
        ⟨fuel - 1, by simp at hfuel; omega⟩
      show (match cwdStep cwd
          (((c :: s') ++ '/' :: joinSegs (r :: rs)).takeWhile isNotSlash) with
        | none => unknownPath
        | some cwd' =>
          cwdLoop f
            ((((c :: s') ++ '/' :: joinSegs (r :: rs)).dropWhile
              isNotSlash).drop 1) cwd') =
        cwd ++ segsPath ((c :: s') :: r :: rs)
      rw [takeWhile_append_slash _ _ hns, dropWhile_append_slash _ _ hns,
          cwdStep_good cwd (c :: s') hne hd1 hd2
            (by
              have := hbound
              rw [show segsPath ((c :: s') :: r :: rs) =
                '/' :: (c :: s') ++ segsPath (r :: rs) from rfl] at this
              simp at this ⊢
              omega),
          if_pos (by omega)]
      show cwdLoop f (joinSegs (r :: rs)) (cwd ++ '/' :: c :: s') =
        cwd ++ segsPath ((c :: s') :: r :: rs)
      rw [ih (cwd ++ '/' :: c :: s') f
        (fun t ht => hgood t (List.mem_cons_of_mem _ ht))
        (by simp; omega)
        (by
          rw [show segsPath ((c :: s') :: r :: rs) =
            '/' :: (c :: s') ++ segsPath (r :: rs) from rfl] at hbound
          simp at hbound ⊢
          omega)
        (by simp at hfuel ⊢; omega)]
      rw [show segsPath ((c :: s') :: r :: rs) =
        '/' :: (c :: s') ++ segsPath (r :: rs) from rfl]
      simp

end Cwd

namespace Cwd

/-- Claim C4: `update_cwd_path` processes its argument segment by
segment — an absolute path makes the result independent of the previous
cwd (reset to `"/"`); empty and `"."` segments are skipped; `".."`
removes the last cwd segment, leaving `"/"` unchanged at the root; any
other segment is appended with a separator unless the cwd is the
1-character root; a segment that would push the cwd past `PATH_MAX`
makes the final cwd `"(unknown)"`; and concretely, from cwd `"/"`,
`update_cwd_path("/a/b/../c//d")` yields `"/a/c/d"`. -/
theorem C4_update_cwd :
    (∀ cwd, update_cwd_path ("/a/b/../c//d".toList) cwd = "/a/c/d".toList) ∧
    (∀ cwd cwd' p,
      update_cwd_path ('/' :: p) cwd = update_cwd_path ('/' :: p) cwd') ∧
    (∀ f p cwd, cwdLoop (f + 1) ('/' :: p) cwd = cwdLoop f p cwd) ∧
    (∀ f p cwd, cwdLoop (f + 1) ('.' :: '/' :: p) cwd = cwdLoop f p cwd) ∧
    (∀ a b, ('/' : Char) ∉ b →
      cwdStep (a ++ '/' :: b) ['.', '.'] =
        some (if a = [] then ['/'] else a)) ∧
    (∀ cwd seg, seg ≠ [] → seg ≠ ['.'] → seg ≠ ['.', '.'] →
      cwd.length + seg.length + 2 < PATH_MAX →
      cwdStep cwd seg =
        some (if cwd.length ≠ 1 then cwd ++ '/' :: seg else cwd ++ seg)) ∧
    (∀ cwd seg, seg ≠ [] → seg ≠ ['.'] → seg ≠ ['.', '.'] →
      PATH_MAX ≤ cwd.length + seg.length + 2 →
      cwdStep cwd seg = none) ∧
    (∀ f p cwd, p ≠ [] → cwdStep cwd (p.takeWhile isNotSlash) = none →
      cwdLoop (f + 1) p cwd = unknownPath) := by
  refine ⟨fun cwd => rfl, fun cwd cwd' p => rfl, fun f p cwd => rfl,
    fun f p cwd => rfl, ?_, ?_, ?_, ?_⟩
  · intro a b hb
    unfold cwdStep
    rw [if_neg (by decide), if_neg (by decide), if_pos rfl,
        lastSlashIdx_append a b hb]
    show (if a.length = 0 then some ((a ++ '/' :: b).take 1)
      else some ((a ++ '/' :: b).take a.length)) =
      some (if a = [] then ['/'] else a)
    by_cases ha : a = []
    · subst ha
      simp
    · rw [if_neg (by simp [List.length_eq_zero, ha]), List.take_left,
          if_neg ha]
  · exact fun cwd seg h1 h2 h3 h4 => cwdStep_good cwd seg h1 h2 h3 h4
  · intro cwd seg h1 h2 h3 h4
    unfold cwdStep
    rw [if_neg h1, if_neg h2, if_neg h3, if_pos (by omega)]
  · intro f p cwd hp h
    obtain ⟨c, p', rfl⟩ := List.exists_cons_of_ne_nil hp
    show (match cwdStep cwd ((c :: p').takeWhile isNotSlash) with
      | none => unknownPath
      | some cwd' =>
        cwdLoop f (((c :: p').dropWhile isNotSlash).drop 1) cwd') =
      unknownPath
    rw [h]

/-- Witness for C4: the concrete normalization scenario, a `".."` step
removing `"b"` from `"/a/b"`, and `".."` leaving the root alone. -/
theorem C4_witness :
    update_cwd_path ("/a/b/../c//d".toList) ("/".toList) = "/a/c/d".toList ∧
    cwdStep ['/', 'a', '/', 'b'] ['.', '.'] = some ['/', 'a'] ∧
    cwdStep ['/'] ['.', '.'] = some ['/'] := by
  refine ⟨C4_update_cwd.1 _, ?_, ?_⟩
  · have h := C4_update_cwd.2.2.2.2.1 ['/', 'a'] ['b'] (by decide)
    simpa using h
  · have h := C4_update_cwd.2.2.2.2.1 [] [] (by decide)
    simpa using h

/-- Claim C8, counterexample: `"/."` satisfies the claim's definition of
normalized form (absolute, no `"//"`, no `"/./"`, no trailing slash),
yet `update_cwd_path("/.")` yields `"/"`, not `"/."` — the claimed
normal form fails to exclude `"."` (and `".."`) segments. -/
theorem C8_counterexample :
    update_cwd_path ("/.".toList) ("/.".toList) ≠ "/.".toList := by decide

/-- Claim C8 (amended): `update_cwd_path` is idempotent on strings in
normalized form provided the form also contains no `"."` or `".."`
segments and leaves 3 characters of headroom below `PATH_MAX`: for any
such string (`"/"` joined from nonempty slash-free segments), updating
any cwd with it makes the cwd exactly that string — so
`chdir(getcwd())` leaves the cwd string unchanged. -/
theorem C8_idempotent_amended (segs : List (List Char)) (cwd : List Char)
    (hgood : ∀ s ∈ segs,
      s ≠ [] ∧ ('/' : Char) ∉ s ∧ s ≠ ['.'] ∧ s ≠ ['.', '.'])
    (hlen : (normOfSegs segs).length + 3 ≤ PATH_MAX) :
    update_cwd_path (normOfSegs segs) cwd = normOfSegs segs := by
  show cwdLoop (joinSegs segs).length (joinSegs segs) ['/'] = normOfSegs segs
  cases segs with
  | nil => rfl
  | cons s rest =>
    obtain ⟨hne, hns, hd1, hd2⟩ := hgood s (List.mem_cons_self s rest)
    obtain ⟨c, s', rfl⟩ := List.exists_cons_of_ne_nil hne
    cases rest with
    | nil =>
      show (match cwdStep ['/'] ((c :: s').takeWhile isNotSlash) with
        | none => unknownPath
        | some cwd' =>
          cwdLoop s'.length (((c :: s').dropWhile isNotSlash).drop 1) cwd') =
        normOfSegs [c :: s']
      rw [takeWhile_no_slash _ hns, dropWhile_no_slash _ hns,
          cwdStep_good ['/'] (c :: s') hne hd1 hd2
            (by simp [normOfSegs, joinSegs] at hlen ⊢; omega),
          if_neg (by simp)]
      show cwdLoop s'.length [] (['/'] ++ c :: s') = normOfSegs [c :: s']
      have hz : cwdLoop s'.length [] (['/'] ++ c :: s') =
          ['/'] ++ c :: s' := by
        cases s'.length <;> rfl
      rw [hz]
      rfl
    | cons r rs =>
      show (match cwdStep ['/']
          (((c :: s') ++ '/' :: joinSegs (r :: rs)).takeWhile isNotSlash) with
        | none => unknownPath
        | some cwd' =>
          cwdLoop (s' ++ '/' :: joinSegs (r :: rs)).length
            ((((c :: s') ++ '/' :: joinSegs (r :: rs)).dropWhile
              isNotSlash).drop 1) cwd') =
        normOfSegs ((c :: s') :: r :: rs)
      rw [takeWhile_append_slash _ _ hns, dropWhile_append_slash _ _ hns,
          cwdStep_good ['/'] (c :: s') hne hd1 hd2
            (by
              simp [normOfSegs, joinSegs, segsPath_eq] at hlen ⊢
              omega),
          if_neg (by simp)]
      show cwdLoop (s' ++ '/' :: joinSegs (r :: rs)).length
          (('/' :: joinSegs (r :: rs)).drop 1) (['/'] ++ c :: s') =
        normOfSegs ((c :: s') :: r :: rs)
      rw [show ('/' :: joinSegs (r :: rs)).drop 1 = joinSegs (r :: rs)
        from rfl]
      rw [cwdLoop_segs (r :: rs) (['/'] ++ c :: s')
        (s' ++ '/' :: joinSegs (r :: rs)).length
        (fun t ht => hgood t (List.mem_cons_of_mem _ ht))
        (by simp)
        (by
          rw [segsPath_eq]
          simp [normOfSegs, joinSegs] at hlen ⊢
          omega)
        (by simp; omega)]
      rw [segsPath_eq]
      show ('/' :: c :: s') ++ '/' :: joinSegs (r :: rs) =
        '/' :: ((c :: s') ++ '/' :: joinSegs (r :: rs))
      simp

/-- Witness for C8: updating cwd `"/x"` with the normalized string
`"/a/b"` leaves exactly `"/a/b"`. -/
theorem C8_witness :
    update_cwd_path ("/a/b".toList) ("/x".toList) = "/a/b".toList := by
  have h := C8_idempotent_amended [['a'], ['b']] ("/x".toList)
    (by decide) (by decide)
  exact h

end Cwd

namespace Poll

theorem pollPhase1_cons_neg (tab : Nat → Option PollIo) (a : PollFd)
    (rest : List PollFd) (h : a.fd < 0) :
    pollPhase1 tab (a :: rest) =
      ({ a with revents := 0 } :: (pollPhase1 tab rest).1,
       none :: (pollPhase1 tab rest).2.1,
       (pollPhase1 tab rest).2.2.1, (pollPhase1 tab rest).2.2.2) := by
  simp only [pollPhase1]
  rw [if_pos h]

theorem pollPhase1_cons_nval (tab : Nat → Option PollIo) (a : PollFd)
    (rest : List PollFd) (h1 : ¬ a.fd < 0)
    (h2 : fd_to_io a.fd tab = none) :
    pollPhase1 tab (a :: rest) =
      ({ a with revents := POLLNVAL } :: (pollPhase1 tab rest).1,
       none :: (pollPhase1 tab rest).2.1,
       (pollPhase1 tab rest).2.2.1, (pollPhase1 tab rest).2.2.2) := by
  simp only [pollPhase1]
  rw [if_neg h1]
  simp only [h2]

theorem pollPhase1_cons_abort (tab : Nat → Option PollIo) (a : PollFd)
    (rest : List PollFd) (io : PollIo) (h1 : ¬ a.fd < 0)
    (h2 : fd_to_io a.fd tab = some io)
    (h3 : (io.waitBegin a.events).1 = 0) :
    pollPhase1 tab (a :: rest) =
      ({ a with revents := 0 } :: rest, [], [], ERR_INVALID_ARGS) := by
  simp only [pollPhase1]
  rw [if_neg h1]
  simp only [h2]
  rw [if_pos h3]

theorem pollPhase1_cons_valid (tab : Nat → Option PollIo) (a : PollFd)
    (rest : List PollFd) (io : PollIo) (h1 : ¬ a.fd < 0)
    (h2 : fd_to_io a.fd tab = some io)
    (h3 : (io.waitBegin a.events).1 ≠ 0) :
    pollPhase1 tab (a :: rest) =
      ({ a with revents := 0 } :: (pollPhase1 tab rest).1,
       some io :: (pollPhase1 tab rest).2.1,
       io.waitBegin a.events :: (pollPhase1 tab rest).2.2.1,
       (pollPhase1 tab rest).2.2.2) := by
  simp only [pollPhase1]
  rw [if_neg h1]
  simp only [h2]
  rw [if_neg h3]

theorem fd_to_io_neg (tab : Nat → Option PollIo) (fd : Int) (h : fd < 0) :
    fd_to_io fd tab = none := by
  unfold fd_to_io
  rw [if_pos (Or.inl h)]

theorem fd_to_io_nonneg (tab : Nat → Option PollIo) (fd : Int)
    (io : PollIo) (h : fd_to_io fd tab = some io) : ¬ fd < 0 := by
  intro hneg
  rw [fd_to_io_neg tab fd hneg] at h
  cases h

theorem pollPhase1_abort (tab : Nat → Option PollIo) :
    ∀ fds : List PollFd,
    (∃ pfd ∈ fds, ∃ io, fd_to_io pfd.fd tab = some io ∧
      (io.waitBegin pfd.events).1 = 0) →
    (pollPhase1 tab fds).2.2.2 = ERR_INVALID_ARGS := by
  intro fds
  induction fds with
  | nil =>
    rintro ⟨pfd, hmem, _⟩
    simp at hmem
  | cons a rest ih =>
    rintro ⟨pfd, hmem, io, hio, hh⟩
    by_cases hneg : a.fd < 0
    · rw [pollPhase1_cons_neg tab a rest hneg]
      apply ih
      rcases List.mem_cons.mp hmem with rfl | hm
      · exact absurd hio (by rw [fd_to_io_neg tab pfd.fd hneg]; simp)
      · exact ⟨pfd, hm, io, hio, hh⟩
    · cases hcase : fd_to_io a.fd tab with
      | none =>
        rw [pollPhase1_cons_nval tab a rest hneg hcase]
        apply ih
        rcases List.mem_cons.mp hmem with rfl | hm
        · rw [hcase] at hio; cases hio
        · exact ⟨pfd, hm, io, hio, hh⟩
      | some aio =>
        by_cases hha : (aio.waitBegin a.events).1 = 0
        · rw [pollPhase1_cons_abort tab a rest aio hneg hcase hha]
        · rw [pollPhase1_cons_valid tab a rest aio hneg hcase hha]
          apply ih
          rcases List.mem_cons.mp hmem with rfl | hm
          · rw [hcase] at hio
            injection hio with h'
            subst h'
            exact absurd hh hha
          · exact ⟨pfd, hm, io, hio, hh⟩

theorem pollPhase1_ok (tab : Nat → Option PollIo) :
    ∀ fds : List PollFd,
    (∀ pfd ∈ fds, ∀ io, fd_to_io pfd.fd tab = some io →
      (io.waitBegin pfd.events).1 ≠ 0) →
    pollPhase1 tab fds =
      (fds.map (fun a => { a with revents :=
          if a.fd < 0 then 0
          else if (fd_to_io a.fd tab).isNone then POLLNVAL else 0 }),
       fds.map (fun a => fd_to_io a.fd tab),
       fds.filterMap (fun a => (fd_to_io a.fd tab).map
         (fun io => io.waitBegin a.events)),
       NO_ERROR) := by
  intro fds
  induction fds with
  | nil => intro _; rfl
  | cons a rest ih =>
    intro h
    have hrest := fun pfd hm => h pfd (List.mem_cons_of_mem _ hm)
    by_cases hneg : a.fd < 0
    · have hfd : fd_to_io a.fd tab = none := fd_to_io_neg tab a.fd hneg
      rw [pollPhase1_cons_neg tab a rest hneg, ih hrest]
      simp [hneg, hfd]
    · cases hcase : fd_to_io a.fd tab with
      | none =>
        rw [pollPhase1_cons_nval tab a rest hneg hcase, ih hrest]
        simp [hneg, hcase]
      | some io =>
        have hh : (io.waitBegin a.events).1 ≠ 0 :=
          h a (List.mem_cons_self _ _) io hcase
        rw [pollPhase1_cons_valid tab a rest io hneg hcase hh, ih hrest]
        simp [hneg, hcase]

end Poll

namespace Poll

theorem pollPhase2_spec (tab : Nat → Option PollIo) :
    ∀ (fds : List PollFd) (pend : List Nat),
    pend.length = (fds.filterMap (fun a => (fd_to_io a.fd tab).map
      (fun io => io.waitBegin a.events))).length →
    List.Forall₂ (entryRel tab) fds
      (pollPhase2
        (fds.map (fun a => { a with revents :=
          if a.fd < 0 then 0
          else if (fd_to_io a.fd tab).isNone then POLLNVAL else 0 }))
        (fds.map (fun a => fd_to_io a.fd tab)) pend).1 ∧
    (pollPhase2
        (fds.map (fun a => { a with revents :=
          if a.fd < 0 then 0
          else if (fd_to_io a.fd tab).isNone then POLLNVAL else 0 }))
        (fds.map (fun a => fd_to_io a.fd tab)) pend).2 =
      (pollPhase2
        (fds.map (fun a => { a with revents :=
          if a.fd < 0 then 0
          else if (fd_to_io a.fd tab).isNone then POLLNVAL else 0 }))
        (fds.map (fun a => fd_to_io a.fd tab)) pend).1.countP
        (isReadyEntry tab) := by
  intro fds
  induction fds with
  | nil =>
    intro pend _
    exact ⟨List.Forall₂.nil, rfl⟩
  | cons a rest ih =>
    intro pend hlen
    cases hcase : fd_to_io a.fd tab with
    | none =>
      simp only [List.map_cons, List.filterMap_cons, hcase,
        Option.map_none', Option.isNone_none, if_true] at hlen ⊢
      simp only [pollPhase2]
      have hih := ih pend hlen
      refine ⟨List.Forall₂.cons ⟨rfl, rfl, ?_, ?_⟩ hih.1, ?_⟩
      · intro h; simp [h]
      · intro h1 _; simp [h1]
      · simp only [List.countP_cons]
        have hpred : isReadyEntry tab
            { a with revents := if a.fd < 0 then 0 else POLLNVAL } = false := by
          simp [isReadyEntry, hcase]
        rw [hpred]
        simpa using hih.2
    | some io =>
      simp only [List.map_cons, List.filterMap_cons, hcase,
        Option.map_some', Option.isNone_some, if_false] at hlen ⊢
      cases pend with
      | nil => simp at hlen
      | cons p ps =>
        simp only [List.length_cons] at hlen
        simp only [pollPhase2, ite_self]
        have hnneg : ¬ a.fd < 0 := fd_to_io_nonneg tab a.fd io hcase
        have hih := ih ps (by omega)
        refine ⟨List.Forall₂.cons ⟨rfl, rfl, fun h => absurd h hnneg,
          fun _ h => by rw [hcase] at h; cases h⟩ hih.1, ?_⟩
        simp only [List.countP_cons]
        have hpred : isReadyEntry tab
            { a with revents :=
              io.waitEnd p &&& (a.events ||| EPOLLHUP ||| EPOLLERR) } =
            decide (io.waitEnd p &&& (a.events ||| EPOLLHUP ||| EPOLLERR)
              ≠ 0) := by
          simp [isReadyEntry, hcase]
        rw [hpred]
        by_cases hrev :
            io.waitEnd p &&& (a.events ||| EPOLLHUP ||| EPOLLERR) ≠ 0
        · rw [if_pos hrev, if_pos (decide_eq_true hrev), hih.2]
          omega
        · rw [if_neg hrev, if_neg (fun h => hrev (of_decide_eq_true h)),
              hih.2]
          omega

end Poll

namespace Poll

theorem pollFinish_err (fds1 : List PollFd) (ios : List (Option PollIo))
    (items : List (Int × Nat)) (r : Int)
    (kernel : List (Int × Nat) → Option Int → Int × List Nat)
    (timeout : Int) (h : r ≠ NO_ERROR) :
    pollFinish fds1 ios items r kernel timeout =
      ⟨-1, some (mxio_status_to_errno r), fds1, false⟩ := by
  unfold pollFinish
  rw [if_neg (fun hc => h hc.1), if_neg h]

theorem pollFinish_empty (fds1 : List PollFd) (ios : List (Option PollIo))
    (kernel : List (Int × Nat) → Option Int → Int × List Nat)
    (timeout : Int) :
    pollFinish fds1 ios [] NO_ERROR kernel timeout =
      ⟨0, none, fds1, false⟩ := by
  unfold pollFinish
  rw [if_neg (by simp), if_pos rfl]

theorem pollFinish_ok (fds1 : List PollFd) (ios : List (Option PollIo))
    (items : List (Int × Nat))
    (kernel : List (Int × Nat) → Option Int → Int × List Nat)
    (timeout : Int) (hne : items ≠ [])
    (hst : (kernel items (if 0 ≤ timeout then some timeout else none)).1 =
        NO_ERROR ∨
      (kernel items (if 0 ≤ timeout then some timeout else none)).1 =
        ERR_TIMED_OUT) :
    pollFinish fds1 ios items NO_ERROR kernel timeout =
      ⟨((pollPhase2 fds1 ios
          (kernel items (if 0 ≤ timeout then some timeout else none)).2).2
          : Int),
       none,
       (pollPhase2 fds1 ios
         (kernel items (if 0 ≤ timeout then some timeout else none)).2).1,
       true⟩ := by
  unfold pollFinish
  rw [if_pos ⟨rfl, List.length_pos.mpr hne⟩, if_pos hst]

/-- Claim C7: `poll` with more than `MAX_POLL_NFDS` entries fails with
`EINVAL`; otherwise entries with negative fd are skipped (revents 0),
an unbound fd gets `revents = POLLNVAL` while the walk continues, a
`wait_begin` yielding the invalid handle on any looked-up entry makes
the whole call return `-1` with errno `EINVAL` (the translation of
`ERR_INVALID_ARGS`), and when the kernel wait reports `NO_ERROR` or
`ERR_TIMED_OUT` the return value is the number of looked-up entries
whose revents — the `wait_end` events masked to
`events | EPOLLHUP | EPOLLERR` — are nonzero. -/
theorem C7_poll (fds : List PollFd) (tab : Nat → Option PollIo)
    (kernel : List (Int × Nat) → Option Int → Int × List Nat) (timeout : Int)
    (hkst : ∀ its t,
      (kernel its t).1 = NO_ERROR ∨ (kernel its t).1 = ERR_TIMED_OUT)
    (hklen : ∀ its t, (kernel its t).2.length = its.length) :
    (MAX_POLL_NFDS < fds.length →
      poll fds tab kernel timeout = ⟨-1, some EINVAL, fds, false⟩) ∧
    (fds.length ≤ MAX_POLL_NFDS →
      ((∃ pfd ∈ fds, ∃ io, fd_to_io pfd.fd tab = some io ∧
          (io.waitBegin pfd.events).1 = 0) →
        (poll fds tab kernel timeout).ret = -1 ∧
        (poll fds tab kernel timeout).errno = some EINVAL) ∧
      ((∀ pfd ∈ fds, ∀ io, fd_to_io pfd.fd tab = some io →
          (io.waitBegin pfd.events).1 ≠ 0) →
        (poll fds tab kernel timeout).ret =
          ((poll fds tab kernel timeout).fds.countP (isReadyEntry tab)
            : Int) ∧
        List.Forall₂ (entryRel tab) fds
          (poll fds tab kernel timeout).fds)) := by
  refine ⟨?_, fun hn => ⟨?_, ?_⟩⟩
  · intro h
    unfold poll
    rw [if_pos h]
  · intro hex
    have habort := pollPhase1_abort tab fds hex
    unfold poll
    rw [if_neg (by omega), habort,
        pollFinish_err _ _ _ ERR_INVALID_ARGS kernel timeout (by decide)]
    refine ⟨rfl, ?_⟩
    show some (mxio_status_to_errno ERR_INVALID_ARGS) = some EINVAL
    decide
  · intro hok
    have h1 := pollPhase1_ok tab fds hok
    unfold poll
    rw [if_neg (by omega), h1]
    dsimp only
    by_cases hitems : fds.filterMap (fun a => (fd_to_io a.fd tab).map
        (fun io => io.waitBegin a.events)) = []
    · rw [hitems, pollFinish_empty _ _ kernel timeout]
      have hub : ∀ a ∈ fds, fd_to_io a.fd tab = none := by
        intro a ha
        have := (List.filterMap_eq_nil.mp hitems) a ha
        exact Option.map_eq_none'.mp this
      constructor
      · dsimp only
        have hz : (fds.map (fun a => { a with revents :=
            if a.fd < 0 then 0
            else if (fd_to_io a.fd tab).isNone then POLLNVAL else 0
            })).countP (isReadyEntry tab) = 0 := by
          rw [List.countP_eq_zero]
          intro b hb
          obtain ⟨a, ha, rfl⟩ := List.mem_map.mp hb
          simp [isReadyEntry, hub a ha]
        rw [hz]
        rfl
      · dsimp only
        rw [List.forall₂_map_right_iff]
        rw [List.forall₂_same]
        intro a ha
        refine ⟨rfl, rfl, fun h => by simp [h], fun h1 _ => ?_⟩
        simp [h1, hub a ha]
    · rw [pollFinish_ok _ _ _ kernel timeout hitems (hkst _ _)]
      have hp2 := pollPhase2_spec tab fds
        ((kernel (fds.filterMap (fun a => (fd_to_io a.fd tab).map
          (fun io => io.waitBegin a.events)))
          (if 0 ≤ timeout then some timeout else none)).2)
        (hklen _ _)
      dsimp only
      exact ⟨by rw [hp2.2], hp2.1⟩

/-- Witness for C7: a two-entry array where entry 0 has a negative fd
and entry 1 is bound to an io whose `wait_begin` yields the invalid
handle — the whole call fails with `EINVAL`. -/
theorem C7_witness :
    (poll [⟨-1, 0, 7⟩, ⟨9, 1, 7⟩] ptab0 kernelAll1 0).ret = -1 ∧
    (poll [⟨-1, 0, 7⟩, ⟨9, 1, 7⟩] ptab0 kernelAll1 0).errno = some EINVAL :=
  ((C7_poll [⟨-1, 0, 7⟩, ⟨9, 1, 7⟩] ptab0 kernelAll1 0
      (fun _ _ => Or.inl rfl)
      (fun its _ => List.length_map its _)).2
    (by decide)).1
    ⟨⟨9, 1, 7⟩, by simp, pioInvalid, rfl, rfl⟩

/-- Claim C10, counterexample: an array of 1025 entries, every one with
a negative fd, contributes no wait item, yet `poll` returns `-1`
(errno `EINVAL`) rather than 0, because the `MAX_POLL_NFDS` check fires
first. -/
theorem C10_counterexample :
    (poll (List.replicate 1025 ⟨-1, 0, 0⟩) pollEmptyTab kernelAll1
      (-1)).ret ≠ 0 := by
  unfold poll
  rw [if_pos (by rw [List.length_replicate]; decide)]
  decide

/-- Claim C10 (amended to arrays within `MAX_POLL_NFDS`): when every
entry has a negative or unbound fd and at most `MAX_POLL_NFDS` entries
are given, `poll` returns 0 immediately for every timeout (negative
included) without invoking the kernel multi-wait, each unbound entry
marked `revents = POLLNVAL` and each negative-fd entry zeroed. -/
theorem C10_amended (fds : List PollFd) (tab : Nat → Option PollIo)
    (kernel : List (Int × Nat) → Option Int → Int × List Nat)
    (timeout : Int) (hlen : fds.length ≤ MAX_POLL_NFDS)
    (hnone : ∀ pfd ∈ fds, fd_to_io pfd.fd tab = none) :
    poll fds tab kernel timeout =
      ⟨0, none,
       fds.map (fun a =>
         { a with revents := if a.fd < 0 then 0 else POLLNVAL }),
       false⟩ := by
  have hok : ∀ pfd ∈ fds, ∀ io, fd_to_io pfd.fd tab = some io →
      (io.waitBegin pfd.events).1 ≠ 0 := by
    intro pfd hm io hio
    rw [hnone pfd hm] at hio
    cases hio
  have h1 := pollPhase1_ok tab fds hok
  unfold poll
  rw [if_neg (by omega), h1]
  dsimp only
  have hitems : fds.filterMap (fun a => (fd_to_io a.fd tab).map
      (fun io => io.waitBegin a.events)) = [] := by
    rw [List.filterMap_eq_nil]
    intro a ha
    rw [hnone a ha]
    rfl
  rw [hitems, pollFinish_empty _ _ kernel timeout]
  have hmap : fds.map (fun a => { a with revents :=
      if a.fd < 0 then 0
      else if (fd_to_io a.fd tab).isNone then POLLNVAL else 0 }) =
      fds.map (fun a =>
        { a with revents := if a.fd < 0 then 0 else POLLNVAL }) := by
    apply List.map_congr_left
    intro a ha
    rw [hnone a ha]
    simp
  rw [hmap]

/-- Witness for C10: a negative-fd entry plus an unbound fd 7 — `poll`
with infinite timeout returns 0 at once, never calling the kernel, with
the unbound entry marked `POLLNVAL`. -/
theorem C10_witness :
    poll [⟨-1, 0, 5⟩, ⟨7, 3, 9⟩] pollEmptyTab kernelAll1 (-1) =
      ⟨0, none, [⟨-1, 0, 0⟩, ⟨7, 3, POLLNVAL⟩], false⟩ :=
  C10_amended [⟨-1, 0, 5⟩, ⟨7, 3, 9⟩] pollEmptyTab kernelAll1 (-1)
    (by decide) (fun pfd hm => by fin_cases hm <;> rfl)

end Poll
